import Mathlib

/-!
Verification of the public auto-forward Telegram bot (src/bot.py).

The development shallowly embeds the bot's pure decision logic:

* Python string primitives used by the code (`str.strip`, `str.isdigit`,
  `int` on digit strings, `str.startswith`, `in`, `str.replace`,
  `str.lstrip('@')`, `str.split('/')`) are modelled over `List Char`.
* The setup wizard (`handle_conversation` and its `_handle_*_step` helpers)
  is modelled as a pure transition function on one user's session together
  with the global forwarding flag; replies and started jobs are returned
  explicitly.  An uncaught exception inside a step handler is modelled by an
  explicit `exc` oracle, translating the `try/except` wrapper of
  `handle_conversation`.
* The forward executors (`execute_simple_forward`, `execute_edit_forward`)
  are modelled as a fold over the (limit-bounded) message history.  Oracles
  `err` (the per-message platform call raises at iteration i), `stopClr`
  (the global flag was observed cleared at the check of iteration i) and
  `iterRaises` (the history iterator itself raises after the yielded
  messages) determinize the environment.  The trace of attempted platform
  calls, the processed iteration indices and the messages counted as edited
  are all recorded so that counter and trace properties can be stated.
-/

namespace PublicBot

/-- ASCII whitespace stripped by Python `str.strip()` (default argument). -/
def isPyWS (c : Char) : Bool :=
  c = ' ' || c = '\t' || c = '\n' || c = '\r' || c = '\x0b' || c = '\x0c'

/-- Drop the leading whitespace run (helper for `str.strip`). -/
def dropWS : List Char → List Char
  | [] => []
  | c :: t => if isPyWS c then dropWS t else c :: t

/-- `str.strip()` on the character list: drop leading whitespace, then
trailing whitespace (via reversal). -/
def pyStripL (l : List Char) : List Char :=
  (dropWS ((dropWS l).reverse)).reverse

/-- Python `s.strip()` (bot.py line 164: `user_text = message.text.strip()`). -/
def pyStrip (s : String) : String := ⟨pyStripL s.data⟩

/-- Python `s.isdigit()` restricted to ASCII digit strings: nonempty and all
characters are digits (bot.py line 260). -/
def pyIsdigit (s : String) : Bool := !s.data.isEmpty && s.data.all Char.isDigit

/-- Python `int(s)` for a digit string (bot.py line 261). -/
def pyInt (s : String) : Nat :=
  s.data.foldl (fun n c => 10 * n + (c.toNat - '0'.toNat)) 0

/-- Python `l.startswith(p)` at the list level: `p` is an initial run of `l`. -/
def startsWithList : List Char → List Char → Bool
  | _, [] => true
  | [], _ :: _ => false
  | a :: l, b :: p => a == b && startsWithList l p

/-- Python `needle in hay` substring test at the list level. -/
def listContains (needle : List Char) : List Char → Bool
  | [] => needle.isEmpty
  | c :: t => startsWithList (c :: t) needle || listContains needle t

/-- Python `needle in hay` on strings (bot.py line 398). -/
def pyIn (needle hay : String) : Bool := listContains needle.data hay.data

/-- Python `s.replace("", new)`: `new` is inserted before every character and
once at the end. -/
def interleaveAll (new : List Char) : List Char → List Char
  | [] => new
  | c :: t => new ++ c :: interleaveAll new t

/-- Python `s.replace(old, new)` for nonempty `old`: scan left to right,
replacing every non-overlapping occurrence. -/
def replaceCore (old new : List Char) (l : List Char) : List Char :=
  match l with
  | [] => []
  | c :: t =>
    if startsWithList (c :: t) old && !old.isEmpty then
      new ++ replaceCore old new (t.drop (old.length - 1))
    else
      c :: replaceCore old new t
termination_by l.length
decreasing_by
  · simp [List.length_drop]
    omega
  · simp

/-- Python `s.replace(old, new)` (bot.py line 399). -/
def pyReplace (s old new : String) : String :=
  if old.data.isEmpty then ⟨interleaveAll new.data s.data⟩
  else ⟨replaceCore old.data new.data s.data⟩

/-! ## Conversation data model (bot.py `user_states`) -/

/-- The `'mode'` field of a `user_states` entry. -/
inductive Mode
  | simple_forward
  | edit_forward
deriving DecidableEq, Repr

/-- The `'step'` field of a `user_states` entry. -/
inductive WizardStep
  | waiting_source
  | waiting_destination
  | waiting_find_text
  | waiting_replace_text
  | waiting_limits
deriving DecidableEq, Repr

/-- One `user_states` dictionary entry.  Fields that the Python dict only
acquires later in the wizard default to `""`. -/
structure UserData where
  mode : Mode
  step : WizardStep
  chat_id : Nat := 0
  source : String := ""
  destination : String := ""
  find_text : String := ""
  replace_text : String := ""
deriving DecidableEq, Repr

/-- The parameter set handed from `_handle_limits_step` to the created
executor task (`asyncio.create_task(...)`, bot.py lines 286-292). -/
structure JobParams where
  mode : Mode
  source : String
  destination : String
  find_text : String
  replace_text : String
  limit : Option Nat
deriving DecidableEq, Repr

/-- Result of handling one conversation message for one user: that user's
session afterwards, the global flag afterwards, the reply texts sent, and the
executor job started (if any). -/
structure ConvResult where
  session : Option UserData
  is_forwarding : Bool
  replies : List String
  job_started : Option JobParams
deriving DecidableEq, Repr

/-- Reply of bot.py line 263. -/
def limitErrorReply : String := "Limit must be greater than 0"

/-- Reply of bot.py line 277. -/
def busyReply : String := "Another forwarding job is running! Use /stop first."

/-- Reply of bot.py line 280. -/
def startingReply : String := "Starting auto-forward..."

/-- Reply of bot.py line 182. -/
def convErrorText (e : String) : String := "Error in conversation: " ++ e

/-- Reply of bot.py lines 192-198. -/
def sourceSavedReply : String := "Source channel saved"

/-- Reply of bot.py lines 206-213. -/
def destSavedFindReply : String := "Destination saved - send find text"

/-- Reply of bot.py lines 216-224. -/
def destSavedLimitsReply : String := "Destination saved - set limits"

/-- Reply of bot.py lines 231-239. -/
def findSavedReply : String := "Find text saved"

/-- Reply of bot.py lines 247-254. -/
def replaceSavedReply : String := "Replace text saved"

/-- `_handle_source_step` (bot.py lines 187-198). -/
def handle_source_step (flag : Bool) (ud : UserData) (t : String) : ConvResult :=
  { session := some { ud with source := t, step := .waiting_destination },
    is_forwarding := flag, replies := [sourceSavedReply], job_started := none }

/-- `_handle_destination_step` (bot.py lines 200-224). -/
def handle_destination_step (flag : Bool) (ud : UserData) (t : String) : ConvResult :=
  if ud.mode = .edit_forward then
    { session := some { ud with destination := t, step := .waiting_find_text },
      is_forwarding := flag, replies := [destSavedFindReply], job_started := none }
  else
    { session := some { ud with destination := t, step := .waiting_limits },
      is_forwarding := flag, replies := [destSavedLimitsReply], job_started := none }

/-- `_handle_find_text_step` (bot.py lines 226-239). -/
def handle_find_text_step (flag : Bool) (ud : UserData) (t : String) : ConvResult :=
  { session := some { ud with find_text := t, step := .waiting_replace_text },
    is_forwarding := flag, replies := [findSavedReply], job_started := none }

/-- `_handle_replace_text_step` (bot.py lines 241-254):
`user_data['replace_text'] = "" if user_text == "-" else user_text`. -/
def handle_replace_text_step (flag : Bool) (ud : UserData) (t : String) : ConvResult :=
  { session := some { ud with
      replace_text := (if t = "-" then "" else t)
      step := .waiting_limits },
    is_forwarding := flag, replies := [replaceSavedReply], job_started := none }

/-- The parameter set captured from the session by `_handle_limits_step`. -/
def mkJobParams (ud : UserData) (lim : Option Nat) : JobParams :=
  { mode := ud.mode, source := ud.source, destination := ud.destination,
    find_text := ud.find_text, replace_text := ud.replace_text, limit := lim }

/-- Shared tail of `_handle_limits_step` (bot.py lines 266-292): the session
is deleted, then either the busy rejection or the task creation happens. -/
def startOrReject (flag : Bool) (ud : UserData) (lim : Option Nat) : ConvResult :=
  if flag then
    { session := none, is_forwarding := flag, replies := [busyReply],
      job_started := none }
  else
    { session := none, is_forwarding := flag, replies := [startingReply],
      job_started := some (mkJobParams ud lim) }

/-- `_handle_limits_step` (bot.py lines 256-292).  Note the exact parse
structure of lines 259-264: `limit` stays `None` unless the input is a
non-sentinel digit string, and only a parsed value `<= 0` is rejected. -/
def handle_limits_step (flag : Bool) (ud : UserData) (t : String) : ConvResult :=
  if t != "-" && pyIsdigit t then
    let n := pyInt t
    if n ≤ 0 then
      { session := some ud, is_forwarding := flag, replies := [limitErrorReply],
        job_started := none }
    else
      startOrReject flag ud (some n)
  else
    startOrReject flag ud none

/-- The step dispatch of `handle_conversation` (bot.py lines 166-179). -/
def dispatch_step (flag : Bool) (ud : UserData) (t : String) : ConvResult :=
  match ud.step with
  | .waiting_source => handle_source_step flag ud t
  | .waiting_destination => handle_destination_step flag ud t
  | .waiting_find_text => handle_find_text_step flag ud t
  | .waiting_replace_text => handle_replace_text_step flag ud t
  | .waiting_limits => handle_limits_step flag ud t

/-- `handle_conversation` (bot.py lines 155-185) for one user.  `session` is
this user's `user_states` entry (or `none`).  `exc` is the exception oracle:
`some e` means the dispatched step handler raised with text `e`, in which
case the `except` block replies with the error text and deletes the session.
A user with no session returns before any handler runs. -/
def handle_conversation (flag : Bool) (session : Option UserData)
    (exc : Option String) (text : String) : ConvResult :=
  match session with
  | none =>
    { session := none, is_forwarding := flag, replies := [], job_started := none }
  | some ud =>
    match exc with
    | some e =>
      { session := none, is_forwarding := flag, replies := [convErrorText e],
        job_started := none }
    | none => dispatch_step flag ud (pyStrip text)

/-! ## Source normalization and the forward executors -/

/-- The characters of the public-link head `"https://t.me/"`. -/
def linkHeadChars : List Char :=
  ['h', 't', 't', 'p', 's', ':', '/', '/', 't', '.', 'm', 'e', '/']

/-- Python `s.lstrip('@')`: drop every leading `'@'`. -/
def dropAt : List Char → List Char
  | [] => []
  | c :: t => if c = '@' then dropAt t else c :: t

/-- Python `s.split('/')`. -/
def splitSlash (l : List Char) : List (List Char) :=
  l.foldr
    (fun c acc =>
      match acc with
      | [] => [[c]]
      | cur :: rest => if c = '/' then [] :: cur :: rest else (c :: cur) :: rest)
    [[]]

/-- The source cleaning of bot.py lines 300-303 and 371-374:
`if source.startswith('https://t.me/'): source = source.split('/')[-1].lstrip('@')`
then `source = source.lstrip('@')`. -/
def normalizeSource (source : String) : String :=
  let s1 :=
    if startsWithList source.data linkHeadChars then
      dropAt ((splitSlash source.data).getLastD [])
    else source.data
  ⟨dropAt s1⟩

/-- A history message: its id and its optional caption (`None` or a string;
an empty string is falsy in the Python caption check). -/
structure Msg where
  id : Nat
  caption : Option String
deriving DecidableEq, Repr

/-- An attempted platform call of the executor loop. -/
inductive Call
  | forward (msgId : Nat) (destination : String)
  | copy (msgId : Nat) (destination : String) (caption : String)
deriving DecidableEq, Repr

/-- The destination argument of a platform call. -/
def callDest : Call → String
  | .forward _ d => d
  | .copy _ d _ => d

/-- The caption test of bot.py line 398:
`if msg.caption and find_text in msg.caption`. -/
def matchesCaption (find : String) (m : Msg) : Bool :=
  match m.caption with
  | none => false
  | some c => !c.data.isEmpty && listContains find.data c.data

/-- The platform call attempted for one message of the edit loop
(bot.py lines 398-403). -/
def callFor (dest find repl : String) (m : Msg) : Call :=
  if matchesCaption find m then
    Call.copy m.id dest (pyReplace (m.caption.getD "") find repl)
  else
    Call.forward m.id dest

/-- Result of one executor loop: the two counters, the iteration indices that
passed the stop check, the attempted platform calls, the messages counted in
`edited_count`, and whether the loop exited through the cooperative `break`. -/
structure LoopRes where
  forwarded : Nat
  edited : Nat
  processed : List Nat
  calls : List Call
  editedMsgs : List Msg
  broke : Bool
deriving DecidableEq, Repr

/-- The message loop of `execute_simple_forward` (bot.py lines 318-342).
`err i = true` means the `msg.forward` call of iteration `i` raised, so the
per-message `except` skips the message and `forwarded_count` is NOT
incremented (the increment on line 324 sits after the call on line 323).
`stopClr i = true` means the flag was observed cleared at the check of
iteration `i` (line 319), breaking the loop. -/
def simpleLoop (dest : String) (err stopClr : Nat → Bool) :
    List Msg → Nat → LoopRes
  | [], _ => ⟨0, 0, [], [], [], false⟩
  | m :: rest, i =>
    if stopClr i then ⟨0, 0, [], [], [], true⟩
    else
      let r := simpleLoop dest err stopClr rest (i + 1)
      if err i then
        ⟨r.forwarded, r.edited, i :: r.processed,
          Call.forward m.id dest :: r.calls, r.editedMsgs, r.broke⟩
      else
        ⟨r.forwarded + 1, r.edited, i :: r.processed,
          Call.forward m.id dest :: r.calls, r.editedMsgs, r.broke⟩

/-- The message loop of `execute_edit_forward` (bot.py lines 392-424).  A
matching caption leads to a `copy` with the replaced caption and increments
both counters on success; otherwise the message is forwarded unedited.  A
raising platform call (err) increments neither counter. -/
def editLoop (dest find repl : String) (err stopClr : Nat → Bool) :
    List Msg → Nat → LoopRes
  | [], _ => ⟨0, 0, [], [], [], false⟩
  | m :: rest, i =>
    if stopClr i then ⟨0, 0, [], [], [], true⟩
    else
      let r := editLoop dest find repl err stopClr rest (i + 1)
      if err i then
        ⟨r.forwarded, r.edited, i :: r.processed,
          callFor dest find repl m :: r.calls, r.editedMsgs, r.broke⟩
      else if matchesCaption find m then
        ⟨r.forwarded + 1, r.edited + 1, i :: r.processed,
          callFor dest find repl m :: r.calls, m :: r.editedMsgs, r.broke⟩
      else
        ⟨r.forwarded + 1, r.edited, i :: r.processed,
          callFor dest find repl m :: r.calls, r.editedMsgs, r.broke⟩

/-- `get_chat_history(source, limit=limit)`: the history bounded by the
limit (`None` iterates to exhaustion). -/
def boundedHistory (limit : Option Nat) (hist : List Msg) : List Msg :=
  match limit with
  | some n => hist.take n
  | none => hist

/-- Reply of bot.py line 358. -/
def simpleFailReply : String := "Forwarding failed"

/-- Reply of bot.py line 442. -/
def editFailReply : String := "Edit-forwarding failed"

/-- Status edit of bot.py lines 345-352 / 427-436. -/
def completionReplyTag : String := "Completed"

/-- Reply of bot.py lines 353 / 437. -/
def jobDoneReply : String := "Job completed successfully"

/-- Observable outcome of one executor run. -/
structure ExecResult where
  forwarded_count : Nat
  edited_count : Nat
  processed : List Nat
  calls : List Call
  editedMsgs : List Msg
  source_used : String
  final_flag : Bool
  job_failed : Bool
  replies : List String
deriving DecidableEq, Repr

/-- `execute_simple_forward` (bot.py lines 294-362).  `iterRaises` models the
history iterator itself raising after the yielded messages (the job-level
fatal error caught on line 357); it can only fire if the loop did not break
first.  The `finally` of line 361 clears the flag on every outcome, so
`final_flag` is unconditionally `false`. -/
def execute_simple_forward (src dest : String) (limit : Option Nat)
    (hist : List Msg) (err stopClr : Nat → Bool) (iterRaises : Bool) : ExecResult :=
  let s := normalizeSource src
  let msgs := boundedHistory limit hist
  let r := simpleLoop dest err stopClr msgs 0
  let failed := iterRaises && !r.broke
  { forwarded_count := r.forwarded, edited_count := 0, processed := r.processed,
    calls := r.calls, editedMsgs := [], source_used := s, final_flag := false,
    job_failed := failed,
    replies := if failed then [simpleFailReply] else [completionReplyTag, jobDoneReply] }

/-- `execute_edit_forward` (bot.py lines 364-446), analogous. -/
def execute_edit_forward (src dest find repl : String) (limit : Option Nat)
    (hist : List Msg) (err stopClr : Nat → Bool) (iterRaises : Bool) : ExecResult :=
  let s := normalizeSource src
  let msgs := boundedHistory limit hist
  let r := editLoop dest find repl err stopClr msgs 0
  let failed := iterRaises && !r.broke
  { forwarded_count := r.forwarded, edited_count := r.edited,
    processed := r.processed, calls := r.calls, editedMsgs := r.editedMsgs,
    source_used := s, final_flag := false, job_failed := failed,
    replies := if failed then [editFailReply] else [completionReplyTag, jobDoneReply] }

/-- A session sitting at the limit step of a simple-forward wizard. -/
def udLimitsSimple : UserData :=
  { mode := .simple_forward, step := .waiting_limits, chat_id := 0,
    source := "srcchan", destination := "dstchan" }

/-- A session sitting at the replace-text step of an edit-forward wizard. -/
def udReplaceStep : UserData :=
  { mode := .edit_forward, step := .waiting_replace_text, chat_id := 0,
    source := "a", destination := "b", find_text := "x", replace_text := "" }

/-- A session sitting at the source step. -/
def udSourceStep : UserData :=
  { mode := .simple_forward, step := .waiting_source, chat_id := 0 }

/-! ## Helper lemmas -/

/-- `lstrip('@')` is idempotent. -/
theorem dropAt_dropAt (l : List Char) : dropAt (dropAt l) = dropAt l := by
  induction l with
  | nil => rfl
  | cons c t ih =>
    by_cases h : c = '@'
    · simp [dropAt, h, ih]
    · simp [dropAt, h]

/-- A list starting with the public-link head starts with `'h'`, so
`lstrip('@')` leaves it unchanged. -/
theorem dropAt_of_linkHead (l : List Char)
    (h : startsWithList l linkHeadChars = true) : dropAt l = l := by
  cases l with
  | nil => simp [startsWithList, linkHeadChars] at h
  | cons c t =>
    have hc : c = 'h' := by
      simp [linkHeadChars, startsWithList, Bool.and_eq_true] at h
      exact h.1
    subst hc
    simp only [dropAt]
    rw [if_neg (by decide)]

/-! ## C7: source normalization -/

/-- C7 counterexample: normalization is not idempotent.  Stripping the
leading `@` of `"@https://t.me/foo"` uncovers the public-link head, so a
second normalization extracts the final path segment and changes the value
again. -/
theorem spec_c7_counterexample :
    normalizeSource (normalizeSource "@https://t.me/foo")
      ≠ normalizeSource "@https://t.me/foo" := by decide

/-- C7 (amended): `https://t.me/foo` maps to `foo`, `@foo` to `foo`, `foo`
stays `foo`; normalization is idempotent on every input whose `@`-stripped
form does not itself begin with the public-link head (the counterexample
shows the remaining inputs, such as `"@https://t.me/foo"`, are not fixed
after one application). -/
theorem spec_c7_amended (s : String)
    (h : startsWithList (dropAt s.data) linkHeadChars = false) :
    normalizeSource (normalizeSource s) = normalizeSource s
    ∧ normalizeSource "https://t.me/foo" = "foo"
    ∧ normalizeSource "@foo" = "foo"
    ∧ normalizeSource "foo" = "foo" := by
  refine ⟨?_, by decide, by decide, by decide⟩
  have hs : startsWithList s.data linkHeadChars = false := by
    cases hq : startsWithList s.data linkHeadChars with
    | false => rfl
    | true =>
      rw [dropAt_of_linkHead s.data hq, hq] at h
      exact absurd h (by simp)
  have e1 : normalizeSource s = ⟨dropAt s.data⟩ := by
    simp [normalizeSource, hs]
  have e2 : normalizeSource ⟨dropAt s.data⟩ = ⟨dropAt (dropAt s.data)⟩ := by
    simp [normalizeSource, h]
  rw [e1, e2, dropAt_dropAt]

/-- Witness for C7: the amended theorem applied at `"@foo"`. -/
theorem spec_c7_witness :
    normalizeSource (normalizeSource "@foo") = normalizeSource "@foo"
    ∧ normalizeSource "https://t.me/foo" = "foo"
    ∧ normalizeSource "@foo" = "foo"
    ∧ normalizeSource "foo" = "foo" :=
  spec_c7_amended "@foo" (by decide)

/-! ## C1: invalid limit input -/

/-- C1 counterexample: non-numeric non-sentinel input at the limit step is
NOT rejected.  On input `"abc"` the claim demands an error reply with the
session retained and no job; instead `_handle_limits_step` falls through
with `limit = None`, deletes the session, replies that the job is starting,
and creates an executor task. -/
theorem spec_c1_counterexample :
    (handle_conversation false (some udLimitsSimple) none "abc").session = none
    ∧ (handle_conversation false (some udLimitsSimple) none "abc").job_started
        = some (mkJobParams udLimitsSimple none)
    ∧ (handle_conversation false (some udLimitsSimple) none "abc").replies
        = [startingReply] := by
  refine ⟨rfl, by decide, rfl⟩

/-- C1 (amended): only a digit-string input parsing to a non-positive
integer (necessarily an all-zero string) is rejected at the limit step: the
handler replies with the limit error, the session is retained unchanged, no
job is started, and the flag is untouched.  Non-numeric non-sentinel input
is instead treated as "no limit" and proceeds (see the counterexample). -/
theorem spec_c1_amended (flag : Bool) (ud : UserData) (t : String)
    (hdig : pyIsdigit t = true) (hz : pyInt t = 0) :
    handle_limits_step flag ud t
      = { session := some ud, is_forwarding := flag,
          replies := [limitErrorReply], job_started := none } := by
  have hne : t ≠ "-" := by
    intro hc
    rw [hc] at hdig
    exact absurd hdig (by decide)
  have hb : (t != "-" && pyIsdigit t) = true := by
    simp [bne, hne, hdig]
  simp [handle_limits_step, hb, hz]

/-- Witness for C1: the amended theorem applied at input `"0"`. -/
theorem spec_c1_witness :
    pyIsdigit "0" = true ∧ pyInt "0" = 0
    ∧ handle_limits_step false udLimitsSimple "0"
        = { session := some udLimitsSimple, is_forwarding := false,
            replies := [limitErrorReply], job_started := none } :=
  ⟨by decide, by decide, spec_c1_amended false udLimitsSimple "0" (by decide) (by decide)⟩

/-! ## C3: replace-text sentinel versus stripping -/

/-- C3 (code bug): a message consisting of a single space at the
replace-text step is stored as `""`, not `" "`, because
`handle_conversation` strips the text (line 164) before
`_handle_replace_text_step` sees it — even though the bot's own step-4
prompt advertises a single space as "Replace with space" (line 238).  The
sentinel `"-"` does yield `""`, and a non-whitespace input is stored
verbatim. -/
theorem spec_c3_code_bug :
    (handle_conversation false (some udReplaceStep) none " ").session
      = some { udReplaceStep with replace_text := "", step := .waiting_limits }
    ∧ pyStrip " " = ""
    ∧ (handle_conversation false (some udReplaceStep) none "-").session
        = some { udReplaceStep with replace_text := "", step := .waiting_limits }
    ∧ (handle_conversation false (some udReplaceStep) none "xy").session
        = some { udReplaceStep with replace_text := "xy", step := .waiting_limits } :=
  ⟨rfl, rfl, rfl, rfl⟩

/-! ## C5: single-job rejection at the limit step -/

/-- C5: if the global flag is set when the limit step parses successfully
(input is the sentinel, non-numeric, or a positive digit string), the
request is rejected with the busy reply, the session is deleted, no job is
started, and the flag is left set (the handler never touches the running
executor's state). -/
theorem spec_c5 (ud : UserData) (t : String)
    (hok : pyIsdigit t = true → 0 < pyInt t) :
    handle_limits_step true ud t
      = { session := none, is_forwarding := true, replies := [busyReply],
          job_started := none } := by
  by_cases hd : (t != "-" && pyIsdigit t) = true
  · have hdig : pyIsdigit t = true := (Bool.and_eq_true _ _ |>.mp hd).2
    have h0 := hok hdig
    simp [handle_limits_step, hd, Nat.not_le.mpr h0, startOrReject]
  · simp [handle_limits_step, hd, startOrReject]

/-- Witness for C5 at the positive input `"5"` (and, by the hypothesis being
vacuous, the sentinel case is exercised by `"5"`'s digit parse). -/
theorem spec_c5_witness :
    handle_limits_step true udLimitsSimple "5"
      = { session := none, is_forwarding := true, replies := [busyReply],
          job_started := none } :=
  spec_c5 udLimitsSimple "5" (by decide)

/-! ## C6: the flag is always cleared on executor exit -/

/-- C6: both executors clear the global forwarding flag on exit for every
outcome — exhaustion, limit reached, cooperative stop (`stopClr`),
per-message errors (`err`), or a job-level error of the history iteration
itself (`iterRaises`) — the `finally` blocks of lines 361-362 and 445-446. -/
theorem spec_c6 (src dest find repl : String) (limit : Option Nat)
    (hist : List Msg) (err stopClr : Nat → Bool) (iterRaises : Bool) :
    (execute_simple_forward src dest limit hist err stopClr iterRaises).final_flag = false
    ∧ (execute_edit_forward src dest find repl limit hist err stopClr iterRaises).final_flag
        = false :=
  ⟨rfl, rfl⟩

/-! ## C8: exception handling and sessionless free text -/

/-- C8: if a step handler raises for a user with an open session, the bot
replies with the error text and deletes that session (the `except` block of
lines 181-185), leaving the flag untouched; free text from a user with no
open session returns immediately with no reply, no job and no state
change. -/
theorem spec_c8 (flag : Bool) (ud : UserData) (e text : String)
    (exc : Option String) :
    ((handle_conversation flag (some ud) (some e) text).session = none
      ∧ (handle_conversation flag (some ud) (some e) text).replies = [convErrorText e]
      ∧ (handle_conversation flag (some ud) (some e) text).is_forwarding = flag
      ∧ (handle_conversation flag (some ud) (some e) text).job_started = none)
    ∧ handle_conversation flag none exc text
        = { session := none, is_forwarding := flag, replies := [],
            job_started := none } :=
  ⟨⟨rfl, rfl, rfl, rfl⟩, rfl⟩

/-! ## Loop lemmas -/

/-- In the simple loop, `forwarded` counts exactly the processed iterations
whose platform call did not raise, and at most `msgs.length` messages are
processed. -/
theorem simpleLoop_count (dest : String) (err stopClr : Nat → Bool) :
    ∀ (msgs : List Msg) (i : Nat),
      (simpleLoop dest err stopClr msgs i).forwarded
        = ((simpleLoop dest err stopClr msgs i).processed.filter
            (fun j => !err j)).length
      ∧ (simpleLoop dest err stopClr msgs i).processed.length ≤ msgs.length := by
  intro msgs
  induction msgs with
  | nil => intro i; simp [simpleLoop]
  | cons m rest ih =>
    intro i
    cases hs : stopClr i with
    | true => simp [simpleLoop, hs]
    | false =>
      have h := ih (i + 1)
      cases he : err i with
      | true =>
        simp [simpleLoop, hs, he, List.filter_cons]
        exact ⟨h.1, h.2⟩
      | false =>
        simp [simpleLoop, hs, he, List.filter_cons]
        exact ⟨h.1, h.2⟩

/-- Same counting facts for the edit loop. -/
theorem editLoop_count (dest find repl : String) (err stopClr : Nat → Bool) :
    ∀ (msgs : List Msg) (i : Nat),
      (editLoop dest find repl err stopClr msgs i).forwarded
        = ((editLoop dest find repl err stopClr msgs i).processed.filter
            (fun j => !err j)).length
      ∧ (editLoop dest find repl err stopClr msgs i).processed.length ≤ msgs.length := by
  intro msgs
  induction msgs with
  | nil => intro i; simp [editLoop]
  | cons m rest ih =>
    intro i
    cases hs : stopClr i with
    | true => simp [editLoop, hs]
    | false =>
      have h := ih (i + 1)
      cases he : err i with
      | true =>
        simp [editLoop, hs, he, List.filter_cons]
        exact ⟨h.1, h.2⟩
      | false =>
        cases hm : matchesCaption find m with
        | true =>
          simp [editLoop, hs, he, hm, List.filter_cons]
          exact ⟨h.1, h.2⟩
        | false =>
          simp [editLoop, hs, he, hm, List.filter_cons]
          exact ⟨h.1, h.2⟩

/-- The edited counter never exceeds the forwarded counter. -/
theorem editLoop_edit_le (dest find repl : String) (err stopClr : Nat → Bool) :
    ∀ (msgs : List Msg) (i : Nat),
      (editLoop dest find repl err stopClr msgs i).edited
        ≤ (editLoop dest find repl err stopClr msgs i).forwarded := by
  intro msgs
  induction msgs with
  | nil => intro i; simp [editLoop]
  | cons m rest ih =>
    intro i
    cases hs : stopClr i with
    | true => simp [editLoop, hs]
    | false =>
      have h := ih (i + 1)
      cases he : err i with
      | true => simpa [editLoop, hs, he] using h
      | false =>
        cases hm : matchesCaption find m with
        | true => simpa [editLoop, hs, he, hm] using h
        | false =>
          simp [editLoop, hs, he, hm]
          exact Nat.le_trans h (Nat.le_succ _)

/-- Every message counted in `edited_count` had a nonempty caption
containing `find` as a literal substring, and the loop attempted a `copy` of
it with every occurrence of `find` replaced by `repl`. -/
theorem editLoop_edited_spec (dest find repl : String) (err stopClr : Nat → Bool) :
    ∀ (msgs : List Msg) (i : Nat) (m : Msg),
      m ∈ (editLoop dest find repl err stopClr msgs i).editedMsgs →
      ∃ c : String, m.caption = some c ∧ c ≠ "" ∧ pyIn find c = true
        ∧ Call.copy m.id dest (pyReplace c find repl)
            ∈ (editLoop dest find repl err stopClr msgs i).calls := by
  intro msgs
  induction msgs with
  | nil => intro i m hm; simp [editLoop] at hm
  | cons m0 rest ih =>
    intro i m hm
    cases hs : stopClr i with
    | true => simp [editLoop, hs] at hm
    | false =>
      cases he : err i with
      | true =>
        simp only [editLoop, hs, Bool.false_eq_true, if_false, he, if_true] at hm ⊢
        obtain ⟨c, hc1, hc2, hc3, hc4⟩ := ih (i + 1) m hm
        exact ⟨c, hc1, hc2, hc3, List.mem_cons_of_mem _ hc4⟩
      | false =>
        cases hmt : matchesCaption find m0 with
        | false =>
          simp only [editLoop, hs, Bool.false_eq_true, if_false, he, hmt, if_true] at hm ⊢
          obtain ⟨c, hc1, hc2, hc3, hc4⟩ := ih (i + 1) m hm
          exact ⟨c, hc1, hc2, hc3, List.mem_cons_of_mem _ hc4⟩
        | true =>
          simp only [editLoop, hs, Bool.false_eq_true, if_false, he, hmt, if_true,
            List.mem_cons] at hm ⊢
          cases hm with
          | inr hm =>
            obtain ⟨c, hc1, hc2, hc3, hc4⟩ := ih (i + 1) m hm
            exact ⟨c, hc1, hc2, hc3, Or.inr hc4⟩
          | inl hm =>
            subst hm
            obtain ⟨mid, mcap⟩ := m
            cases mcap with
            | none => simp [matchesCaption] at hmt
            | some c =>
              have hcd : c.data.isEmpty = false ∧ listContains find.data c.data = true := by
                simpa [matchesCaption, Bool.and_eq_true] using hmt
              refine ⟨c, rfl, ?_, hcd.2, ?_⟩
              · intro hempty
                rw [hempty] at hcd
                exact absurd hcd.1 (by decide)
              · left
                simp [callFor, hmt]

/-- Every platform call of the simple loop targets exactly `dest`. -/
theorem simpleLoop_calls_dest (dest : String) (err stopClr : Nat → Bool) :
    ∀ (msgs : List Msg) (i : Nat) (c : Call),
      c ∈ (simpleLoop dest err stopClr msgs i).calls → callDest c = dest := by
  intro msgs
  induction msgs with
  | nil => intro i c hc; simp [simpleLoop] at hc
  | cons m rest ih =>
    intro i c hc
    cases hs : stopClr i with
    | true => simp [simpleLoop, hs] at hc
    | false =>
      cases he : err i with
      | true =>
        simp only [simpleLoop, hs, Bool.false_eq_true, if_false, he, if_true,
          List.mem_cons] at hc
        cases hc with
        | inl h => subst h; rfl
        | inr h => exact ih (i + 1) c h
      | false =>
        simp only [simpleLoop, hs, Bool.false_eq_true, if_false, he, if_true,
          List.mem_cons] at hc
        cases hc with
        | inl h => subst h; rfl
        | inr h => exact ih (i + 1) c h

/-- The attempted call for a message always targets `dest`. -/
theorem callFor_dest (dest find repl : String) (m : Msg) :
    callDest (callFor dest find repl m) = dest := by
  by_cases h : matchesCaption find m <;> simp [callFor, callDest, h]

/-- Every platform call of the edit loop targets exactly `dest`. -/
theorem editLoop_calls_dest (dest find repl : String) (err stopClr : Nat → Bool) :
    ∀ (msgs : List Msg) (i : Nat) (c : Call),
      c ∈ (editLoop dest find repl err stopClr msgs i).calls → callDest c = dest := by
  intro msgs
  induction msgs with
  | nil => intro i c hc; simp [editLoop] at hc
  | cons m rest ih =>
    intro i c hc
    cases hs : stopClr i with
    | true => simp [editLoop, hs] at hc
    | false =>
      have step : ∀ tailCalls, c ∈ callFor dest find repl m :: tailCalls →
          (c = callFor dest find repl m ∨ c ∈ tailCalls) := by
        intro tailCalls h
        simpa [List.mem_cons] using h
      cases he : err i with
      | true =>
        simp only [editLoop, hs, Bool.false_eq_true, if_false, he, if_true] at hc
        cases step _ hc with
        | inl h => subst h; exact callFor_dest dest find repl m
        | inr h => exact ih (i + 1) c h
      | false =>
        cases hmt : matchesCaption find m with
        | true =>
          simp only [editLoop, hs, Bool.false_eq_true, if_false, he, hmt, if_true] at hc
          cases step _ hc with
          | inl h => subst h; exact callFor_dest dest find repl m
          | inr h => exact ih (i + 1) c h
        | false =>
          simp only [editLoop, hs, Bool.false_eq_true, if_false, he, hmt, if_true] at hc
          cases step _ hc with
          | inl h => subst h; exact callFor_dest dest find repl m
          | inr h => exact ih (i + 1) c h

/-! ## C2: forwarded_count versus skipped messages -/

/-- C2 counterexample: with a single-message history whose forward call
raises, the message is taken from the iterator and processed
(`processed = [0]`), yet `forwarded_count` stays `0` — the increment on
line 324 sits after the `msg.forward` call inside the `try`, so a
per-message platform error skips it.  The claim demands
`forwarded_count = 1` here. -/
theorem spec_c2_counterexample :
    (execute_simple_forward "s" "d" none [⟨1, none⟩]
        (fun _ => true) (fun _ => false) false).processed = [0]
    ∧ (execute_simple_forward "s" "d" none [⟨1, none⟩]
        (fun _ => true) (fun _ => false) false).forwarded_count = 0 :=
  ⟨rfl, rfl⟩

/-- C2 (amended): in both executors, `forwarded_count` at loop exit equals
the number of processed messages whose platform call succeeded — messages
skipped by a per-message platform error are NOT counted — and the number of
processed messages is bounded by the limit when one is given. -/
theorem spec_c2_amended (src dest find repl : String) (limit : Option Nat)
    (hist : List Msg) (err stopClr : Nat → Bool) (iterRaises : Bool) :
    (execute_simple_forward src dest limit hist err stopClr iterRaises).forwarded_count
      = ((execute_simple_forward src dest limit hist err stopClr iterRaises).processed.filter
          (fun j => !err j)).length
    ∧ (execute_edit_forward src dest find repl limit hist err stopClr iterRaises).forwarded_count
      = ((execute_edit_forward src dest find repl limit hist err stopClr iterRaises).processed.filter
          (fun j => !err j)).length
    ∧ (∀ n, limit = some n →
        (execute_simple_forward src dest limit hist err stopClr iterRaises).processed.length ≤ n
        ∧ (execute_edit_forward src dest find repl limit hist err stopClr iterRaises).processed.length ≤ n) := by
  refine ⟨(simpleLoop_count dest err stopClr _ 0).1,
          (editLoop_count dest find repl err stopClr _ 0).1, ?_⟩
  intro n hn
  subst hn
  constructor
  · exact Nat.le_trans (simpleLoop_count dest err stopClr _ 0).2
      (by simp [boundedHistory])
  · exact Nat.le_trans (editLoop_count dest find repl err stopClr _ 0).2
      (by simp [boundedHistory])

/-- Witness for C2 (amended) at a concrete two-message run with the second
call failing and limit 2. -/
theorem spec_c2_witness :
    (execute_simple_forward "s" "d" (some 2) [⟨1, none⟩, ⟨2, none⟩, ⟨3, none⟩]
        (fun j => j == 1) (fun _ => false) false).forwarded_count
      = ((execute_simple_forward "s" "d" (some 2) [⟨1, none⟩, ⟨2, none⟩, ⟨3, none⟩]
          (fun j => j == 1) (fun _ => false) false).processed.filter
          (fun j => !(j == 1))).length
    ∧ (execute_simple_forward "s" "d" (some 2) [⟨1, none⟩, ⟨2, none⟩, ⟨3, none⟩]
        (fun j => j == 1) (fun _ => false) false).processed.length ≤ 2 := by
  have h := spec_c2_amended "s" "d" "f" "r" (some 2) [⟨1, none⟩, ⟨2, none⟩, ⟨3, none⟩]
    (fun j => j == 1) (fun _ => false) false
  exact ⟨h.1, (h.2.2 2 rfl).1⟩

/-! ## C4: edited_count invariant -/

/-- C4: for every EditForward run (hence also for every prefix of a run,
i.e. after each iteration), `edited_count ≤ forwarded_count`, and every
message counted in `edited_count` had a nonempty caption containing
`find` as a literal substring at process time; such a message was sent via
the `copy` primitive with every occurrence of `find` replaced by `repl`. -/
theorem spec_c4 (src dest find repl : String) (limit : Option Nat)
    (hist : List Msg) (err stopClr : Nat → Bool) (iterRaises : Bool) :
    (execute_edit_forward src dest find repl limit hist err stopClr iterRaises).edited_count
      ≤ (execute_edit_forward src dest find repl limit hist err stopClr iterRaises).forwarded_count
    ∧ ∀ m ∈ (execute_edit_forward src dest find repl limit hist err stopClr iterRaises).editedMsgs,
        ∃ c : String, m.caption = some c ∧ c ≠ "" ∧ pyIn find c = true
          ∧ Call.copy m.id dest (pyReplace c find repl)
              ∈ (execute_edit_forward src dest find repl limit hist err stopClr iterRaises).calls := by
  refine ⟨editLoop_edit_le dest find repl err stopClr _ 0, ?_⟩
  intro m hm
  exact editLoop_edited_spec dest find repl err stopClr _ 0 m hm

/-- Witness for C4 at a concrete run with one matching caption. -/
theorem spec_c4_witness :
    (execute_edit_forward "s" "d" "x" "y" none [⟨1, some "axb"⟩, ⟨2, some "q"⟩]
        (fun _ => false) (fun _ => false) false).edited_count
      ≤ (execute_edit_forward "s" "d" "x" "y" none [⟨1, some "axb"⟩, ⟨2, some "q"⟩]
          (fun _ => false) (fun _ => false) false).forwarded_count
    ∧ (∃ c : String, (Msg.mk 1 (some "axb")).caption = some c ∧ c ≠ ""
        ∧ pyIn "x" c = true
        ∧ Call.copy 1 "d" (pyReplace c "x" "y")
            ∈ (execute_edit_forward "s" "d" "x" "y" none [⟨1, some "axb"⟩, ⟨2, some "q"⟩]
                (fun _ => false) (fun _ => false) false).calls) := by
  have h := spec_c4 "s" "d" "x" "y" none [⟨1, some "axb"⟩, ⟨2, some "q"⟩]
    (fun _ => false) (fun _ => false) false
  exact ⟨h.1, h.2 ⟨1, some "axb"⟩ (by decide)⟩

/-! ## C9: the destination is never normalized -/

/-- C9: every platform call attempted by either executor carries the
destination string exactly as stored at the destination step, while the
history is opened on the normalized source (`source_used`): only the source
undergoes link/sigil normalization. -/
theorem spec_c9 (src dest find repl : String) (limit : Option Nat)
    (hist : List Msg) (err stopClr : Nat → Bool) (iterRaises : Bool) (c : Call)
    (hc : c ∈ (execute_simple_forward src dest limit hist err stopClr iterRaises).calls
        ∨ c ∈ (execute_edit_forward src dest find repl limit hist err stopClr iterRaises).calls) :
    callDest c = dest
    ∧ (execute_simple_forward src dest limit hist err stopClr iterRaises).source_used
        = normalizeSource src
    ∧ (execute_edit_forward src dest find repl limit hist err stopClr iterRaises).source_used
        = normalizeSource src := by
  refine ⟨?_, rfl, rfl⟩
  cases hc with
  | inl h => exact simpleLoop_calls_dest dest err stopClr _ 0 c h
  | inr h => exact editLoop_calls_dest dest find repl err stopClr _ 0 c h

/-- Witness for C9: a concrete run whose trace contains a forward call with
the verbatim destination `"https://t.me/mychannel"`. -/
theorem spec_c9_witness :
    callDest (Call.forward 7 "https://t.me/mychannel") = "https://t.me/mychannel"
    ∧ (execute_simple_forward "@news" "https://t.me/mychannel" none [⟨7, none⟩]
        (fun _ => false) (fun _ => false) false).source_used
        = normalizeSource "@news"
    ∧ (execute_edit_forward "@news" "https://t.me/mychannel" "f" "r" none [⟨7, none⟩]
        (fun _ => false) (fun _ => false) false).source_used
        = normalizeSource "@news" :=
  spec_c9 "@news" "https://t.me/mychannel" "f" "r" none [⟨7, none⟩]
    (fun _ => false) (fun _ => false) false (Call.forward 7 "https://t.me/mychannel")
    (Or.inl (by decide))

/-! ## Strip lemmas and C10 -/

/-- Dropping the leading whitespace run is idempotent. -/
theorem dropWS_dropWS (l : List Char) : dropWS (dropWS l) = dropWS l := by
  induction l with
  | nil => rfl
  | cons c t ih =>
    by_cases h : isPyWS c
    · simp [dropWS, h, ih]
    · simp [dropWS, h]

/-- `dropWS` never lengthens a list. -/
theorem dropWS_length_le (l : List Char) : (dropWS l).length ≤ l.length := by
  induction l with
  | nil => simp [dropWS]
  | cons c t ih =>
    by_cases h : isPyWS c
    · simp only [dropWS, h, if_true]
      exact Nat.le_trans ih (Nat.le_succ _)
    · simp [dropWS, h]

/-- If `dropWS` fixes `xs ++ [a]` with `a` whitespace, it also fixes `xs`. -/
theorem dropWS_append_singleton (xs : List Char) (a : Char)
    (_ha : isPyWS a = true) (h : dropWS (xs ++ [a]) = xs ++ [a]) :
    dropWS xs = xs := by
  cases xs with
  | nil => rfl
  | cons b bs =>
    by_cases hb : isPyWS b
    · exfalso
      have h2 : dropWS (b :: (bs ++ [a])) = dropWS (bs ++ [a]) := by
        simp [dropWS, hb]
      rw [List.cons_append, h2] at h
      have hlen := dropWS_length_le (bs ++ [a])
      rw [h] at hlen
      simp [List.length_append] at hlen
    · simp [dropWS, hb]

/-- Auxiliary induction: if a list has no leading whitespace (viewed through
its reverse), then trailing-stripping it leaves no leading whitespace
either. -/
theorem dropWS_strip_aux (rm : List Char)
    (H : dropWS rm.reverse = rm.reverse) :
    dropWS (dropWS rm).reverse = (dropWS rm).reverse := by
  induction rm with
  | nil => rfl
  | cons a rs ih =>
    by_cases ha : isPyWS a
    · have h1 : dropWS (a :: rs) = dropWS rs := by simp [dropWS, ha]
      rw [h1]
      apply ih
      apply dropWS_append_singleton rs.reverse a ha
      simpa [List.reverse_cons] using H
    · have h1 : dropWS (a :: rs) = a :: rs := by simp [dropWS, ha]
      rw [h1]
      exact H

/-- The stripped string has no leading whitespace. -/
theorem pyStripL_front (l : List Char) : dropWS (pyStripL l) = pyStripL l := by
  have h0 : dropWS ((dropWS l).reverse).reverse = ((dropWS l).reverse).reverse := by
    rw [List.reverse_reverse]
    exact dropWS_dropWS l
  exact dropWS_strip_aux (dropWS l).reverse h0

/-- The stripped string has no trailing whitespace (its reverse has no
leading whitespace). -/
theorem pyStripL_back (l : List Char) :
    dropWS (pyStripL l).reverse = (pyStripL l).reverse := by
  unfold pyStripL
  rw [List.reverse_reverse]
  exact dropWS_dropWS _

/-- `dropWS` of an all-whitespace list is empty. -/
theorem dropWS_all_ws (l : List Char) (h : ∀ c ∈ l, isPyWS c = true) :
    dropWS l = [] := by
  induction l with
  | nil => rfl
  | cons c t ih =>
    have hc : isPyWS c = true := h c (List.mem_cons_self c t)
    simp only [dropWS, hc, if_true]
    exact ih fun d hd => h d (List.mem_cons_of_mem c hd)

/-- Stripping a whitespace-only string yields the empty string. -/
theorem pyStrip_ws_only (s : String) (h : s.data.all isPyWS = true) :
    pyStrip s = "" := by
  have h' : ∀ c ∈ s.data, isPyWS c = true := by
    simpa [List.all_eq_true] using h
  show (⟨pyStripL s.data⟩ : String) = ""
  unfold pyStripL
  rw [dropWS_all_ws s.data h']
  rfl

/-- C10: `handle_conversation` hands the wizard exactly the
stripped input (line 164); the stripped value carries no leading and no
trailing whitespace (so every stored field is surrounding-whitespace free);
a whitespace-only message is processed as the empty string; and at the
source step the stripped text is what gets stored. -/
theorem spec_c10 (flag : Bool) (ud : UserData) (text : String) :
    handle_conversation flag (some ud) none text
      = dispatch_step flag ud (pyStrip text)
    ∧ dropWS (pyStrip text).data = (pyStrip text).data
    ∧ dropWS (pyStrip text).data.reverse = (pyStrip text).data.reverse
    ∧ (text.data.all isPyWS = true → pyStrip text = "")
    ∧ (ud.step = .waiting_source →
        (handle_conversation flag (some ud) none text).session
          = some { ud with source := pyStrip text, step := .waiting_destination }) := by
  refine ⟨rfl, pyStripL_front text.data, pyStripL_back text.data,
    pyStrip_ws_only text, ?_⟩
  intro h
  show (dispatch_step flag ud (pyStrip text)).session = _
  simp [dispatch_step, h, handle_source_step]

/-- Witness for C10: a whitespace-only message strips to `""`, and a padded
source input `" x "` is stored as `"x"`. -/
theorem spec_c10_witness :
    pyStrip "  " = ""
    ∧ (handle_conversation false (some udSourceStep) none " x ").session
        = some { udSourceStep with
            source := pyStrip " x "
            step := .waiting_destination } :=
  ⟨(spec_c10 false udSourceStep "  ").2.2.2.1 (by decide),
   (spec_c10 false udSourceStep " x ").2.2.2.2 rfl⟩

end PublicBot
